import Mathlib

/-!
# Duty-Scheduler: shallow embedding and verification

Shallow embedding of the Duty-Scheduler roster engine (`src/models.py`,
`src/solver.py`) and proofs about the constraint model it builds.

* The domain model (`Shift`, `Employee`, eligibility predicates) is translated
  directly from `src/models.py`.
* The solver's variable space, constraint families and objective construction
  are translated from `src/solver.py` into executable predicates over an
  assignment function on the decision-variable keys.  The external CP-SAT
  search is modelled by the relation `SolveRel`, which allows any outcome the
  code can produce: the setup-failure early return, a success extracted from
  any assignment satisfying the built model (OPTIMAL or time-limited
  FEASIBLE), or the generic infeasibility diagnostic (infeasible model or
  time-out with no solution).
-/

/-! ## Calendar dates

Python `datetime.date`: a valid Gregorian (year, month, day) triple with
lexicographic comparison and `weekday()` returning 0 = Monday .. 6 = Sunday.
-/

structure Date where
  year : Nat
  month : Nat
  day : Nat
deriving DecidableEq, Repr

/-- Gregorian leap-year rule (as used by `datetime`). -/
def isLeapYear (y : Nat) : Bool :=
  y % 4 = 0 && (y % 100 ≠ 0 || y % 400 = 0)

/-- Number of days in a month of a given year (as used by `datetime`). -/
def daysInMonth (y m : Nat) : Nat :=
  if m = 2 then (if isLeapYear y then 29 else 28)
  else if m = 4 ∨ m = 6 ∨ m = 9 ∨ m = 11 then 30
  else 31

/-- A structurally valid `datetime.date`. -/
def ValidDate (d : Date) : Prop :=
  1 ≤ d.month ∧ d.month ≤ 12 ∧ 1 ≤ d.day ∧ d.day ≤ daysInMonth d.year d.month

instance (d : Date) : Decidable (ValidDate d) := by
  unfold ValidDate; infer_instance

/-- Day count in a proleptic Gregorian calendar (rata-die style), used to
compute the day of the week.  Valid for all dates with `year ≥ 1`. -/
def Date.toSerial (d : Date) : Nat :=
  let y := if d.month ≤ 2 then d.year - 1 else d.year
  let m := if d.month ≤ 2 then d.month + 9 else d.month - 3
  let doy := (153 * m + 2) / 5 + d.day - 1
  y * 365 + y / 4 + y / 400 + doy - y / 100

/-- Python `date.weekday()`: 0 = Monday .. 6 = Sunday. -/
def Date.weekday (d : Date) : Nat :=
  (d.toSerial + 2) % 7

/-- Python `date` comparison (lexicographic on a valid triple is calendar
order). -/
def Date.before (a b : Date) : Bool :=
  a.year < b.year ∨ (a.year = b.year ∧
    (a.month < b.month ∨ (a.month = b.month ∧ a.day < b.day)))

/-! ## Domain model (`src/models.py`) -/

/-- Team → duty-category mapping (`models.TYPE_C_TEAMS`). -/
def TYPE_C_TEAMS : List String :=
  ["Blue", "Yellow", "Orange", "Green", "Purple", "Violet"]

/-- Team → duty-category mapping (`models.TYPE_O_TEAMS`). -/
def TYPE_O_TEAMS : List String :=
  ["Black", "White", "Grey", "Red"]

/-- `models.EmployeeType`. -/
inductive EmployeeType where
  | STANDARD
  | WEEKEND_ONLY
deriving DecidableEq, Repr

/-- `EmployeeType.value`. -/
def EmployeeType.value : EmployeeType → String
  | .STANDARD => "Standard"
  | .WEEKEND_ONLY => "Weekend-Only"

/-- `models.Shift`: the closed catalog of shift variants. -/
inductive Shift where
  | ORG_WEEKDAY_PM
  | ORG_WEEKEND
  | ORG_PH
  | TYPE_C_WEEKDAY_PM
  | TYPE_C_WEEKEND_AM
  | TYPE_C_WEEKEND_PM
  | TYPE_C_PH
  | TYPE_O_WEEKDAY_PM
  | TYPE_O_WEEKEND_AM
  | TYPE_O_WEEKEND_PM
  | TYPE_O_PH
deriving DecidableEq, Repr

namespace Shift

/-- `Shift.is_org`. -/
def is_org (s : Shift) : Bool :=
  s = ORG_WEEKDAY_PM ∨ s = ORG_WEEKEND ∨ s = ORG_PH

/-- `Shift.is_type_c`. -/
def is_type_c (s : Shift) : Bool :=
  s = TYPE_C_WEEKDAY_PM ∨ s = TYPE_C_WEEKEND_AM ∨ s = TYPE_C_WEEKEND_PM ∨ s = TYPE_C_PH

/-- `Shift.is_type_o`. -/
def is_type_o (s : Shift) : Bool :=
  s = TYPE_O_WEEKDAY_PM ∨ s = TYPE_O_WEEKEND_AM ∨ s = TYPE_O_WEEKEND_PM ∨ s = TYPE_O_PH

/-- `Shift.category`: the display category string of a shift
("Org" / "Type C" / "Type O"). -/
def category (s : Shift) : String :=
  if s.is_org then "Org" else if s.is_type_c then "Type C" else "Type O"

/-- The Python enum member name (`s.name`), e.g. `"TYPE_C_WEEKEND_AM"`. -/
def pyName : Shift → String
  | ORG_WEEKDAY_PM => "ORG_WEEKDAY_PM"
  | ORG_WEEKEND => "ORG_WEEKEND"
  | ORG_PH => "ORG_PH"
  | TYPE_C_WEEKDAY_PM => "TYPE_C_WEEKDAY_PM"
  | TYPE_C_WEEKEND_AM => "TYPE_C_WEEKEND_AM"
  | TYPE_C_WEEKEND_PM => "TYPE_C_WEEKEND_PM"
  | TYPE_C_PH => "TYPE_C_PH"
  | TYPE_O_WEEKDAY_PM => "TYPE_O_WEEKDAY_PM"
  | TYPE_O_WEEKEND_AM => "TYPE_O_WEEKEND_AM"
  | TYPE_O_WEEKEND_PM => "TYPE_O_WEEKEND_PM"
  | TYPE_O_PH => "TYPE_O_PH"

end Shift

/-- `models.Employee`. -/
structure Employee where
  name : String
  team : String
  role : EmployeeType
  ytd_points : Int
  blackouts : List Date
  ph_bids : List Date
  last_ph_date : Option Date
deriving DecidableEq, Repr

namespace Employee

/-- `Employee.is_immune`: `day < last_ph_date.replace(year + threshold)`,
falling back to `day=28` when the year replacement raises `ValueError`
(i.e. the day does not exist in the target month/year). -/
def is_immune (e : Employee) (day : Date) (years_threshold : Nat) : Bool :=
  match e.last_ph_date with
  | none => false
  | some lp =>
    let y := lp.year + years_threshold
    let endDate : Date :=
      if lp.day ≤ daysInMonth y lp.month then ⟨y, lp.month, lp.day⟩
      else ⟨y, lp.month, 28⟩
    Date.before day endDate

/-- `Employee.can_work` (the `is_immune` call uses the source default
`years_threshold = 2`). -/
def can_work (e : Employee) (day : Date) (shift : Shift)
    (is_public_holiday : Bool) : Bool :=
  if day ∈ e.blackouts then false
  else if is_public_holiday && e.is_immune day 2 then false
  else if is_public_holiday then
    decide (shift ∈ [Shift.ORG_PH, Shift.TYPE_C_PH, Shift.TYPE_O_PH])
  else if day.weekday ≥ 5 then
    decide (shift ∈ [Shift.ORG_WEEKEND,
      Shift.TYPE_C_WEEKEND_AM, Shift.TYPE_C_WEEKEND_PM,
      Shift.TYPE_O_WEEKEND_AM, Shift.TYPE_O_WEEKEND_PM])
  else
    decide (shift ∈ [Shift.ORG_WEEKDAY_PM, Shift.TYPE_C_WEEKDAY_PM,
      Shift.TYPE_O_WEEKDAY_PM])

end Employee

/-! ## Solver inputs (`RosterSolver.__init__`) -/

/-- `solver.DEFAULT_POINT_VALUES` (the Python floats 1.0 / 1.5 / 2.0 as
rationals). -/
def DEFAULT_POINT_VALUES : Shift → ℚ
  | .ORG_WEEKDAY_PM => 1
  | .ORG_WEEKEND => 3 / 2
  | .ORG_PH => 2
  | .TYPE_C_WEEKDAY_PM => 1
  | .TYPE_C_WEEKEND_AM => 3 / 2
  | .TYPE_C_WEEKEND_PM => 3 / 2
  | .TYPE_C_PH => 2
  | .TYPE_O_WEEKDAY_PM => 1
  | .TYPE_O_WEEKEND_AM => 3 / 2
  | .TYPE_O_WEEKEND_PM => 3 / 2
  | .TYPE_O_PH => 2

/-- The inputs of one `RosterSolver` run: the constructor arguments of
`RosterSolver.__init__`.  The point-value table is total over the closed
shift catalog (§6 of the design: all eleven variants must have a value);
the role cap table is an association list looked up by role label. -/
structure RosterInstance where
  employees : List Employee
  date_range : List Date
  public_holidays : List Date
  point_values : Shift → ℚ
  role_max_shifts : List (String × Nat)

namespace RosterInstance

/-- `self.point_weights`: display values scaled to fixed-point integers,
`round(v * 10)`. -/
def pointWeights (inst : RosterInstance) (s : Shift) : ℤ :=
  round (inst.point_values s * 10)

/-- `self.teams`: the set of team names present among the employees
(order is irrelevant to every use below). -/
def teams (inst : RosterInstance) : List String :=
  (inst.employees.map (fun e => e.team)).dedup

/-- `RosterSolver._get_shifts_for_day`. -/
def getShiftsForDay (inst : RosterInstance) (d : Date) : List Shift :=
  if d ∈ inst.public_holidays then
    [Shift.ORG_PH, Shift.TYPE_C_PH, Shift.TYPE_O_PH]
  else if d.weekday ≥ 5 then
    [Shift.ORG_WEEKEND,
     Shift.TYPE_C_WEEKEND_AM, Shift.TYPE_C_WEEKEND_PM,
     Shift.TYPE_O_WEEKEND_AM, Shift.TYPE_O_WEEKEND_PM]
  else
    [Shift.ORG_WEEKDAY_PM, Shift.TYPE_C_WEEKDAY_PM, Shift.TYPE_O_WEEKDAY_PM]

/-- The team pool the variable builder allows for a shift
(`_create_variables`, lines 98–104).  NOTE: translated literally — the
comparisons test `s.category` (which yields `"Org"`, `"Type C"`,
`"Type O"`) against the strings `"TYPE_C"`, `"C"`, `"TYPE_O"`, `"O"`. -/
def allowedTeams (inst : RosterInstance) (s : Shift) : List String :=
  if s.category ∈ ["TYPE_C", "C"] then
    inst.teams.filter (fun t => decide (t ∈ TYPE_C_TEAMS))
  else if s.category ∈ ["TYPE_O", "O"] then
    inst.teams.filter (fun t => decide (t ∈ TYPE_O_TEAMS))
  else
    inst.teams

/-- `_create_variables`, inner test: a decision variable is created for
`(emp, d, s)` iff the employee's team is in the allowed pool and
`can_work` holds. -/
def varExists (inst : RosterInstance) (e : Employee) (d : Date) (s : Shift) : Bool :=
  decide (e.team ∈ inst.allowedTeams s) &&
    e.can_work d s (decide (d ∈ inst.public_holidays))

/-- The keys of `self.variables`, in insertion order
(`_create_variables`). -/
def varKeys (inst : RosterInstance) : List (String × Date × Shift) :=
  inst.date_range.flatMap fun d =>
    (inst.getShiftsForDay d).flatMap fun s =>
      (inst.employees.filter fun e => inst.varExists e d s).map fun e =>
        (e.name, d, s)

/-- The unfillable slots recorded by `_add_coverage_constraints` into
`self.errors` (one entry per slot with no eligible variable, in emission
order; the source stores a formatted message string per slot, modelled
here by the slot itself). -/
def coverageErrors (inst : RosterInstance) : List (Date × Shift) :=
  inst.date_range.flatMap fun d =>
    ((inst.getShiftsForDay d).filter fun s =>
      inst.employees.all fun e => !(inst.varExists e d s)).map fun s => (d, s)

end RosterInstance

/-! ## Sums over the variable space

An assignment is a Boolean valuation of the decision variables; constraints
only ever read it on keys for which a variable exists. -/

/-- A valuation of the decision variables. -/
def Assignment : Type := String × Date × Shift → Bool

namespace RosterInstance

/-- Number of variables of slot `(d, s)` set in `x`
(the sum in `_add_coverage_constraints`). -/
def slotCount (inst : RosterInstance) (x : Assignment) (d : Date) (s : Shift) : Nat :=
  inst.employees.countP fun e =>
    inst.varExists e d s && x (e.name, d, s)

/-- Number of team `t` members assigned to slot `(d, s)`
(a `sum(vars_s1)` term in `_add_team_rotation_constraints`). -/
def teamSlotCount (inst : RosterInstance) (x : Assignment) (t : String)
    (d : Date) (s : Shift) : Nat :=
  inst.employees.countP fun e =>
    decide (e.team = t) && inst.varExists e d s && x (e.name, d, s)

/-- Number of team `t` members that merely have a variable on slot
`(d, s)` (the emptiness guard of `_add_team_rotation_constraints`). -/
def teamVarCount (inst : RosterInstance) (t : String) (d : Date) (s : Shift) : Nat :=
  inst.employees.countP fun e =>
    decide (e.team = t) && inst.varExists e d s

/-- Number of shifts employee `e` is assigned on day `d`
(the sum in `_add_one_shift_per_day` / `_add_rest_constraints`). -/
def dayCount (inst : RosterInstance) (x : Assignment) (e : Employee) (d : Date) : Nat :=
  (inst.getShiftsForDay d).countP fun s =>
    inst.varExists e d s && x (e.name, d, s)

/-- Number of variables employee `e` has on day `d` (the `day_vars` /
`today_vars` length guards). -/
def dayVarCount (inst : RosterInstance) (e : Employee) (d : Date) : Nat :=
  (inst.getShiftsForDay d).countP fun s => inst.varExists e d s

/-- The bidders for holiday `d` (`_add_ph_bidding_constraints`). -/
def bidders (inst : RosterInstance) (d : Date) : List Employee :=
  inst.employees.filter fun e => decide (d ∈ e.ph_bids)

/-- Number of bidders holding a variable on the Org PH slot of `d`
(the `bidder_vars` emptiness guard). -/
def bidderVarCount (inst : RosterInstance) (d : Date) : Nat :=
  (inst.bidders d).countP fun e => inst.varExists e d Shift.ORG_PH

/-- Number of bidders assigned the Org PH slot of `d`
(the `sum(bidder_vars)` term). -/
def bidderAssignedCount (inst : RosterInstance) (x : Assignment) (d : Date) : Nat :=
  (inst.bidders d).countP fun e =>
    inst.varExists e d Shift.ORG_PH && x (e.name, d, Shift.ORG_PH)

/-- The variable keys belonging to one employee (`emp_vars` in
`_add_role_max_shift_constraints`, and the per-employee iteration of
`_set_fairness_objective`). -/
def empKeys (inst : RosterInstance) (e : Employee) : List (String × Date × Shift) :=
  inst.varKeys.filter fun k => decide (k.1 = e.name)

/-- Number of shifts assigned to employee `e` over the whole horizon. -/
def empShiftCount (inst : RosterInstance) (x : Assignment) (e : Employee) : Nat :=
  (inst.empKeys e).countP fun k => x k

/-- `_set_fairness_objective`: employee `e`'s projected fixed-point total,
`ytd_points * 10` plus the weight of every variable of `e` that is set. -/
def empTotal (inst : RosterInstance) (x : Assignment) (e : Employee) : ℤ :=
  10 * e.ytd_points +
    ((inst.empKeys e).map fun k =>
      if x k then inst.pointWeights k.2.2 else 0).sum

end RosterInstance

/-! ## The constraint model (`RosterSolver._add_*`)

Each predicate states that assignment `x` satisfies every constraint the
corresponding method adds to the CP model, with the method's emptiness
guards reproduced literally. -/

namespace RosterInstance

/-- `_add_coverage_constraints`: `sum(relevant) == 1` for every slot that
has at least one variable (slots with none go to `self.errors` instead). -/
def CoverageOk (inst : RosterInstance) (x : Assignment) : Prop :=
  ∀ d ∈ inst.date_range, ∀ s ∈ inst.getShiftsForDay d,
    (∃ e ∈ inst.employees, inst.varExists e d s = true) →
      inst.slotCount x d s = 1

/-- `_add_one_shift_per_day`: `sum(day_vars) <= 1`, added when an employee
has more than one variable that day. -/
def OneShiftOk (inst : RosterInstance) (x : Assignment) : Prop :=
  ∀ e ∈ inst.employees, ∀ d ∈ inst.date_range,
    1 < inst.dayVarCount e d → inst.dayCount x e d ≤ 1

/-- `_add_rest_constraints`: for chronologically adjacent horizon dates,
`sum(today_vars) + sum(tomorrow_vars) <= 1`, added when both days have
variables for the employee. -/
def RestOk (inst : RosterInstance) (x : Assignment) : Prop :=
  ∀ e ∈ inst.employees, ∀ p ∈ inst.date_range.zip inst.date_range.tail,
    0 < inst.dayVarCount e p.1 → 0 < inst.dayVarCount e p.2 →
      inst.dayCount x e p.1 + inst.dayCount x e p.2 ≤ 1

/-- The three rotation buckets of `_add_team_rotation_constraints`
(`"ORG" if "ORG" in s.name else ("TYPE_C" if "TYPE_C" in s.name else
"TYPE_O")`; on the closed catalog the substring tests sort the shifts
exactly by their name prefix). -/
def rotCategory (s : Shift) : String :=
  match s with
  | .ORG_WEEKDAY_PM | .ORG_WEEKEND | .ORG_PH => "ORG"
  | .TYPE_C_WEEKDAY_PM | .TYPE_C_WEEKEND_AM | .TYPE_C_WEEKEND_PM | .TYPE_C_PH => "TYPE_C"
  | .TYPE_O_WEEKDAY_PM | .TYPE_O_WEEKEND_AM | .TYPE_O_WEEKEND_PM | .TYPE_O_PH => "TYPE_O"

/-- The keys of the `cat_shifts` dictionary. -/
def rotCats : List String := ["ORG", "TYPE_C", "TYPE_O"]

/-- One bucket of `cat_shifts`: the (date, shift) slots of a rotation
category in chronological emission order. -/
def catSlots (inst : RosterInstance) (cat : String) : List (Date × Shift) :=
  inst.date_range.flatMap fun d =>
    ((inst.getShiftsForDay d).filter fun s =>
      decide (rotCategory s = cat)).map fun s => (d, s)

/-- `_add_team_rotation_constraints`: for consecutive same-category slots
and every team with variables on both, `sum(vars_s1) + sum(vars_s2) <= 1`. -/
def RotationOk (inst : RosterInstance) (x : Assignment) : Prop :=
  ∀ cat ∈ rotCats,
    ∀ p ∈ (inst.catSlots cat).zip (inst.catSlots cat).tail,
      ∀ t ∈ inst.teams,
        0 < inst.teamVarCount t p.1.1 p.1.2 →
        0 < inst.teamVarCount t p.2.1 p.2.2 →
          inst.teamSlotCount x t p.1.1 p.1.2 +
            inst.teamSlotCount x t p.2.1 p.2.2 ≤ 1

/-- `_add_ph_bidding_constraints`: on each public holiday of the horizon,
`sum(bidder_vars) == 1`, added when some bidder holds a variable. -/
def PhBidOk (inst : RosterInstance) (x : Assignment) : Prop :=
  ∀ d ∈ inst.date_range, d ∈ inst.public_holidays →
    0 < inst.bidderVarCount d →
      inst.bidderAssignedCount x d = 1

/-- `_add_role_max_shift_constraints`: `sum(emp_vars) <= max_s` for each
employee whose role label has a configured cap and who has variables. -/
def RoleCapOk (inst : RosterInstance) (x : Assignment) : Prop :=
  ∀ e ∈ inst.employees, ∀ m : Nat,
    (inst.role_max_shifts.find? fun p => decide (p.1 = e.role.value)).map Prod.snd
        = some m →
      0 < (inst.empKeys e).length →
        inst.empShiftCount x e ≤ m

/-- `_set_fairness_objective`, constraint part: the auxiliary objective
variables `max_pts`, `min_pts` are `NewIntVar(0, 100000)` and bracket every
employee's projected total. -/
def AuxOk (inst : RosterInstance) (x : Assignment) (mx mn : ℤ) : Prop :=
  0 ≤ mx ∧ mx ≤ 100000 ∧ 0 ≤ mn ∧ mn ≤ 100000 ∧
    ∀ e ∈ inst.employees, inst.empTotal x e ≤ mx ∧ mn ≤ inst.empTotal x e

/-- All roster constraints (`solve`, lines 229–233 plus coverage). -/
def SatisfiesRoster (inst : RosterInstance) (x : Assignment) : Prop :=
  inst.CoverageOk x ∧ inst.OneShiftOk x ∧ inst.RestOk x ∧
    inst.RotationOk x ∧ inst.PhBidOk x ∧ inst.RoleCapOk x

/-- The complete CP model of one `solve` call: roster constraints plus the
objective's auxiliary variables. -/
def SatisfiesFull (inst : RosterInstance) (x : Assignment) (mx mn : ℤ) : Prop :=
  inst.SatisfiesRoster x ∧ inst.AuxOk x mx mn

instance (inst : RosterInstance) (x : Assignment) : Decidable (inst.CoverageOk x) := by
  unfold CoverageOk; infer_instance

instance (inst : RosterInstance) (x : Assignment) : Decidable (inst.OneShiftOk x) := by
  unfold OneShiftOk; infer_instance

instance (inst : RosterInstance) (x : Assignment) : Decidable (inst.RestOk x) := by
  unfold RestOk; infer_instance

instance (inst : RosterInstance) (x : Assignment) : Decidable (inst.RotationOk x) := by
  unfold RotationOk; infer_instance

instance (inst : RosterInstance) (x : Assignment) : Decidable (inst.PhBidOk x) := by
  unfold PhBidOk; infer_instance

instance (inst : RosterInstance) (x : Assignment) : Decidable (inst.RoleCapOk x) := by
  unfold RoleCapOk; infer_instance

instance (inst : RosterInstance) (x : Assignment) (mx mn : ℤ) :
    Decidable (inst.AuxOk x mx mn) := by
  unfold AuxOk; infer_instance

instance (inst : RosterInstance) (x : Assignment) : Decidable (inst.SatisfiesRoster x) := by
  unfold SatisfiesRoster; infer_instance

instance (inst : RosterInstance) (x : Assignment) (mx mn : ℤ) :
    Decidable (inst.SatisfiesFull x mx mn) := by
  unfold SatisfiesFull; infer_instance

end RosterInstance

/-! ## The solve run (`RosterSolver.solve`) -/

/-- The three return shapes of `RosterSolver.solve`:
`(None, None, errors)` after a coverage setup failure, DataFrames extracted
from a found solution with `[]` diagnostics, or
`(None, None, [generic conflict message])`. -/
inductive SolveResult where
  | failure (errors : List (Date × Shift))
  | success (x : Assignment)
  | infeasible

/-- The possible outcomes of `RosterSolver.solve` on an instance.
`coverage_fail` is the early return at lines 227–228 (the search is never
invoked); `found` covers the `OPTIMAL`/`FEASIBLE` extraction from any
assignment satisfying the built model; `no_solution` is the generic
diagnostic return, reachable when the model is infeasible or the 10-second
budget expires without a solution. -/
inductive SolveRel (inst : RosterInstance) : SolveResult → Prop where
  | coverage_fail :
      inst.coverageErrors ≠ [] →
      SolveRel inst (.failure inst.coverageErrors)
  | found (x : Assignment) (mx mn : ℤ) :
      inst.coverageErrors = [] →
      inst.SatisfiesFull x mx mn →
      SolveRel inst (.success x)
  | no_solution :
      inst.coverageErrors = [] →
      SolveRel inst .infeasible

/-! ## Basic facts about the constraint model -/

namespace RosterInstance

/-- A pair is in `coverageErrors` exactly when it is a calendar slot with
no eligible variable. -/
theorem mem_coverageErrors (inst : RosterInstance) (d : Date) (s : Shift) :
    (d, s) ∈ inst.coverageErrors ↔
      d ∈ inst.date_range ∧ s ∈ inst.getShiftsForDay d ∧
        ∀ e ∈ inst.employees, inst.varExists e d s = false := by
  unfold coverageErrors
  simp only [List.mem_flatMap, List.mem_map, List.mem_filter, List.all_eq_true,
    Bool.not_eq_true', Prod.mk.injEq]
  constructor
  · rintro ⟨d1, hd1, s1, ⟨hs1, hall⟩, hds, hss⟩
    subst hds; subst hss
    exact ⟨hd1, hs1, hall⟩
  · rintro ⟨hd, hs, hall⟩
    exact ⟨d, hd, s, ⟨hs, hall⟩, rfl, rfl⟩

/-- When the setup check records no error, every calendar slot has at
least one eligible variable. -/
theorem exists_var_of_no_errors (inst : RosterInstance)
    (h : inst.coverageErrors = []) {d : Date} {s : Shift}
    (hd : d ∈ inst.date_range) (hs : s ∈ inst.getShiftsForDay d) :
    ∃ e ∈ inst.employees, inst.varExists e d s = true := by
  by_contra hc
  push_neg at hc
  have hmem : (d, s) ∈ inst.coverageErrors :=
    (mem_coverageErrors inst d s).mpr
      ⟨hd, hs, fun e he => by simpa using hc e he⟩
  rw [h] at hmem
  exact absurd hmem (List.not_mem_nil _)

/-- Every slot of a rotation bucket is a calendar slot. -/
theorem mem_catSlots (inst : RosterInstance) (cat : String) (p : Date × Shift)
    (hp : p ∈ inst.catSlots cat) :
    p.1 ∈ inst.date_range ∧ p.2 ∈ inst.getShiftsForDay p.1 := by
  unfold catSlots at hp
  simp only [List.mem_flatMap, List.mem_map, List.mem_filter] at hp
  obtain ⟨d1, hd1, s1, ⟨hs1, _⟩, heq⟩ := hp
  subst heq
  exact ⟨hd1, hs1⟩

/-- Assigned team members on a slot are team members with a variable. -/
theorem teamSlotCount_le_teamVarCount (inst : RosterInstance) (x : Assignment)
    (t : String) (d : Date) (s : Shift) :
    inst.teamSlotCount x t d s ≤ inst.teamVarCount t d s := by
  apply List.countP_mono_left
  intro e _ he
  simp only [Bool.and_eq_true] at he ⊢
  exact he.1

/-- Assigned team members on a slot are assigned employees of the slot. -/
theorem teamSlotCount_le_slotCount (inst : RosterInstance) (x : Assignment)
    (t : String) (d : Date) (s : Shift) :
    inst.teamSlotCount x t d s ≤ inst.slotCount x d s := by
  apply List.countP_mono_left
  intro e _ he
  simp only [Bool.and_eq_true] at he ⊢
  exact ⟨he.1.2, he.2⟩

end RosterInstance

/-! ## Fixed-point weights

The kernel cannot evaluate rational arithmetic, so concrete weight
computations go through an explicit integer table proved equal to
`round(v * 10)` once and for all. -/

/-- The fixed-point integer weights that `DEFAULT_POINT_VALUES` scales to. -/
def defaultPointWeights : Shift → ℤ
  | .ORG_WEEKDAY_PM => 10
  | .ORG_WEEKEND => 15
  | .ORG_PH => 20
  | .TYPE_C_WEEKDAY_PM => 10
  | .TYPE_C_WEEKEND_AM => 15
  | .TYPE_C_WEEKEND_PM => 15
  | .TYPE_C_PH => 20
  | .TYPE_O_WEEKDAY_PM => 10
  | .TYPE_O_WEEKEND_AM => 15
  | .TYPE_O_WEEKEND_PM => 15
  | .TYPE_O_PH => 20

/-- On the default point-value table, `round(v * 10)` yields exactly the
integer table above. -/
theorem pointWeights_default (inst : RosterInstance)
    (h : inst.point_values = DEFAULT_POINT_VALUES) :
    ∀ s, inst.pointWeights s = defaultPointWeights s := by
  intro s
  cases s <;>
    simp [RosterInstance.pointWeights, h, DEFAULT_POINT_VALUES, defaultPointWeights] <;>
    norm_num [round_eq]

/-- `empTotal` written with an explicit integer weight table. -/
theorem empTotal_eq_weights (inst : RosterInstance) (W : Shift → ℤ)
    (hW : ∀ s, inst.pointWeights s = W s) (x : Assignment) (e : Employee) :
    inst.empTotal x e = 10 * e.ytd_points +
      ((inst.empKeys e).map fun k => if x k then W k.2.2 else 0).sum := by
  simp only [RosterInstance.empTotal, hW]

/-- Establish `AuxOk` through an explicit integer weight table. -/
theorem auxOk_of_weights (inst : RosterInstance) (x : Assignment) (mx mn : ℤ)
    (W : Shift → ℤ) (hW : ∀ s, inst.pointWeights s = W s)
    (h : 0 ≤ mx ∧ mx ≤ 100000 ∧ 0 ≤ mn ∧ mn ≤ 100000 ∧
      ∀ e ∈ inst.employees,
        10 * e.ytd_points +
            ((inst.empKeys e).map fun k => if x k then W k.2.2 else 0).sum ≤ mx ∧
        mn ≤ 10 * e.ytd_points +
            ((inst.empKeys e).map fun k => if x k then W k.2.2 else 0).sum) :
    inst.AuxOk x mx mn := by
  unfold RosterInstance.AuxOk
  simp only [empTotal_eq_weights inst W hW x]
  exact h

/-! ## Concrete fixtures -/

/-- Monday 2025-01-06. -/
def mon1 : Date := ⟨2025, 1, 6⟩

/-- An employee of a Category-O team ("Black"). -/
def empBob : Employee := ⟨"Bob", "Black", .STANDARD, 0, [], [], none⟩

/-- One weekday horizon containing only `empBob`. -/
def instGate : RosterInstance :=
  ⟨[empBob], [mon1], [], DEFAULT_POINT_VALUES, []⟩

/-- C1: the claim states that a decision variable exists only when the
employee's team belongs to the shift category's allowed team set.  The
code contradicts this (and its own comment "Determine which teams are
allowed for this specific shift type"): `Shift.category` yields `"Org"`,
`"Type C"` or `"Type O"`, never the compared literals `"TYPE_C"`, `"C"`,
`"TYPE_O"`, `"O"`, so the branch choosing a restricted pool is
unreachable and every shift admits all teams.  Concretely, employee
"Bob" of Category-O team "Black" receives a variable for the Category-C
weekday shift. -/
theorem c1_team_gate_dead :
    ("Bob", mon1, Shift.TYPE_C_WEEKDAY_PM) ∈ instGate.varKeys ∧
    "Black" ∉ TYPE_C_TEAMS ∧ "Black" ∈ TYPE_O_TEAMS ∧
    ∀ s : Shift, s.category ∉ (["TYPE_C", "C"] : List String) ∧
      s.category ∉ (["TYPE_O", "O"] : List String) := by
  refine ⟨by decide, by decide, by decide, ?_⟩
  intro s
  cases s <;> exact ⟨by decide, by decide⟩

/-- The immunity-window end as the claim words it: the last-duty date
advanced by two years, clamped to the last valid day of that month when
the advanced day does not exist. -/
def immunityEndClaim (lp : Date) : Date :=
  let y := lp.year + 2
  if lp.day ≤ daysInMonth y lp.month then ⟨y, lp.month, lp.day⟩
  else ⟨y, lp.month, daysInMonth y lp.month⟩

/-- C4: for a valid stored last-duty date, `is_immune e day 2` holds iff a
last-duty-on-holiday date exists and `day` is strictly before that date
advanced by 2 years, clamped to the last valid day of the month when the
advanced day does not exist (the code's `day=28` fallback coincides with
that clamp: the only date whose year replacement can fail is Feb 29, and
then the target February has 28 days). -/
theorem c4_is_immune_iff (e : Employee) (day : Date)
    (hv : ∀ lp, e.last_ph_date = some lp → ValidDate lp) :
    e.is_immune day 2 = true ↔
      ∃ lp, e.last_ph_date = some lp ∧
        Date.before day (immunityEndClaim lp) = true := by
  cases hlp : e.last_ph_date with
  | none => simp [Employee.is_immune, hlp]
  | some lp =>
    have hvlp := hv lp hlp
    have hend :
        (if lp.day ≤ daysInMonth (lp.year + 2) lp.month
          then (⟨lp.year + 2, lp.month, lp.day⟩ : Date)
          else ⟨lp.year + 2, lp.month, 28⟩) = immunityEndClaim lp := by
      unfold immunityEndClaim
      by_cases hle : lp.day ≤ daysInMonth (lp.year + 2) lp.month
      · simp [hle]
      · simp only [if_neg hle]
        have hvd : lp.day ≤ daysInMonth lp.year lp.month := hvlp.2.2.2
        have h28 : daysInMonth (lp.year + 2) lp.month = 28 := by
          by_cases hm : lp.month = 2
          · unfold daysInMonth at hvd hle ⊢
            simp only [if_pos hm] at hvd hle ⊢
            cases hL : isLeapYear (lp.year + 2) <;> simp [hL] at hle ⊢ <;>
              cases hL2 : isLeapYear lp.year <;> simp [hL2] at hvd <;> omega
          · unfold daysInMonth at hvd hle
            simp only [if_neg hm] at hvd hle
            omega
        rw [h28]
    unfold Employee.is_immune
    rw [hlp]
    simp only [hend]
    constructor
    · intro h; exact ⟨lp, rfl, h⟩
    · rintro ⟨lp2, hlp2, h⟩
      cases hlp2; exact h

/-- An employee whose last holiday duty was Feb 29, 2024 (the clamping
case of the immunity window). -/
def empIvy : Employee := ⟨"Ivy", "Blue", .STANDARD, 0, [], [], some ⟨2024, 2, 29⟩⟩

/-- C4 witness: `c4_is_immune_iff` applied to a Feb 29 last-duty date and
a query date inside the clamped window. -/
theorem c4_witness :
    (∀ lp, empIvy.last_ph_date = some lp → ValidDate lp) ∧
    (empIvy.is_immune ⟨2026, 2, 27⟩ 2 = true ↔
      ∃ lp, empIvy.last_ph_date = some lp ∧
        Date.before ⟨2026, 2, 27⟩ (immunityEndClaim lp) = true) := by
  have hv : ∀ lp, empIvy.last_ph_date = some lp → ValidDate lp := by
    intro lp h
    have h2 : some (⟨2024, 2, 29⟩ : Date) = some lp := h
    cases h2
    decide
  exact ⟨hv, c4_is_immune_iff empIvy ⟨2026, 2, 27⟩ hv⟩

/-- C5: `can_work` returns false on blackout dates; otherwise on a public
holiday it requires non-immunity and holds exactly for the three
holiday-variant shifts; on a weekend exactly for the five weekend-variant
shifts; on a weekday exactly for the three weekday-PM-variant shifts. -/
theorem c5_can_work_iff (e : Employee) (day : Date) (s : Shift) (ph : Bool) :
    e.can_work day s ph = true ↔
      (day ∉ e.blackouts ∧
        ((ph = true ∧ e.is_immune day 2 = false ∧
            s ∈ [Shift.ORG_PH, Shift.TYPE_C_PH, Shift.TYPE_O_PH]) ∨
         (ph = false ∧ 5 ≤ day.weekday ∧
            s ∈ [Shift.ORG_WEEKEND, Shift.TYPE_C_WEEKEND_AM,
                 Shift.TYPE_C_WEEKEND_PM, Shift.TYPE_O_WEEKEND_AM,
                 Shift.TYPE_O_WEEKEND_PM]) ∨
         (ph = false ∧ day.weekday < 5 ∧
            s ∈ [Shift.ORG_WEEKDAY_PM, Shift.TYPE_C_WEEKDAY_PM,
                 Shift.TYPE_O_WEEKDAY_PM]))) := by
  unfold Employee.can_work
  by_cases hb : day ∈ e.blackouts
  · simp [hb]
  · cases ph
    · simp only [hb, if_false, Bool.false_and, if_neg (by simp : ¬(False : Prop))]
      by_cases hw : day.weekday ≥ 5 <;> simp [hw, hb] <;> omega
    · cases hi : e.is_immune day 2 <;> simp [hb, hi]

/-! C2 -/

/-- C2 (amended): in every successful roster, for every public holiday in
the horizon that has at least one bidder holding an eligibility variable
on the Org PH slot, exactly one bidder is assigned that slot, and the
slot is held by exactly one employee overall (so the holder is that
bidder).  The amendment restricts the claim from "has at least one
bidder" to "has at least one bidder with a variable": the constraint
`sum(bidder_vars) == 1` is only added when `bidder_vars` is nonempty. -/
theorem c2_bid_priority (inst : RosterInstance) (x : Assignment)
    (h : SolveRel inst (.success x)) (d : Date)
    (hd : d ∈ inst.date_range) (hph : d ∈ inst.public_holidays)
    (hb : 0 < inst.bidderVarCount d) :
    inst.bidderAssignedCount x d = 1 ∧ inst.slotCount x d Shift.ORG_PH = 1 := by
  cases h with
  | found x mx mn herr hsat =>
    obtain ⟨⟨hcov, _, _, _, hbid, _⟩, _⟩ := hsat
    refine ⟨hbid d hd hph hb, ?_⟩
    have hsORG : Shift.ORG_PH ∈ inst.getShiftsForDay d := by
      unfold RosterInstance.getShiftsForDay
      simp [hph]
    -- some bidder has a variable on the Org PH slot
    rw [RosterInstance.bidderVarCount, List.countP_pos_iff] at hb
    obtain ⟨e, he, hvar⟩ := hb
    rw [RosterInstance.bidders, List.mem_filter] at he
    exact hcov d hd Shift.ORG_PH hsORG ⟨e, he.1, hvar⟩

def ph1 : Date := ⟨2025, 1, 1⟩

def empAna : Employee := ⟨"Ana", "Blue", .STANDARD, 0, [], [ph1], some ⟨2024, 6, 1⟩⟩
def empBen : Employee := ⟨"Ben", "Blue", .STANDARD, 0, [], [], none⟩
def empCab : Employee := ⟨"Cab", "Blue", .STANDARD, 0, [], [], none⟩
def empDee : Employee := ⟨"Dee", "Blue", .STANDARD, 0, [], [], none⟩

def instBid : RosterInstance :=
  ⟨[empAna, empBen, empCab, empDee], [ph1], [ph1], DEFAULT_POINT_VALUES, []⟩

def xBid : Assignment := fun k =>
  decide (k ∈ [("Ben", ph1, Shift.ORG_PH), ("Cab", ph1, Shift.TYPE_C_PH),
               ("Dee", ph1, Shift.TYPE_O_PH)])

/-- C2 counterexample: a public holiday with a bidder ("Ana", immune, so
she holds no variable) admits a successful roster that gives the Org PH
slot to non-bidder "Ben" — refuting the claim as stated, which requires a
bidder whenever one exists for the date. -/
theorem c2_counterexample :
    SolveRel instBid (.success xBid) ∧
    ph1 ∈ instBid.date_range ∧ ph1 ∈ instBid.public_holidays ∧
    ph1 ∈ empAna.ph_bids ∧ empAna ∈ instBid.employees ∧
    instBid.bidderAssignedCount xBid ph1 = 0 ∧
    instBid.slotCount xBid ph1 Shift.ORG_PH = 1 ∧
    instBid.varExists empAna ph1 Shift.ORG_PH = false := by
  refine ⟨SolveRel.found xBid 20 0 (by decide)
    ⟨by decide, auxOk_of_weights instBid xBid 20 0 defaultPointWeights
      (pointWeights_default instBid rfl) (by decide)⟩,
    by decide, by decide, by decide, by decide, by decide, by decide, by decide⟩

def empEli : Employee := ⟨"Eli", "Blue", .STANDARD, 0, [], [ph1], none⟩
def empFay : Employee := ⟨"Fay", "Blue", .STANDARD, 0, [], [], none⟩
def empGus : Employee := ⟨"Gus", "Blue", .STANDARD, 0, [], [], none⟩

def instBidW : RosterInstance :=
  ⟨[empEli, empFay, empGus], [ph1], [ph1], DEFAULT_POINT_VALUES, []⟩

def xBidW : Assignment := fun k =>
  decide (k ∈ [("Eli", ph1, Shift.ORG_PH), ("Fay", ph1, Shift.TYPE_C_PH),
               ("Gus", ph1, Shift.TYPE_O_PH)])

/-- C2 witness: `c2_bid_priority` applied to a concrete holiday roster
whose bidder "Eli" is eligible. -/
theorem c2_witness :
    0 < instBidW.bidderVarCount ph1 ∧
    (instBidW.bidderAssignedCount xBidW ph1 = 1 ∧
      instBidW.slotCount xBidW ph1 Shift.ORG_PH = 1) :=
  ⟨by decide,
    c2_bid_priority instBidW xBidW
      (SolveRel.found xBidW 20 20 (by decide)
        ⟨by decide, auxOk_of_weights instBidW xBidW 20 20 defaultPointWeights
          (pointWeights_default instBidW rfl) (by decide)⟩)
      ph1 (by decide) (by decide) (by decide)⟩

/-! C3 -/

/-- C3 (amended): `solve` does not raise on an empty date horizon; the
coverage check records no error and an ordinary empty success result is
among the outcomes (the built model is trivially satisfiable whenever the
starting points fit the objective bounds).  Malformed inputs are not
specially signalled. -/
theorem c3_empty_horizon (inst : RosterInstance)
    (h : inst.date_range = [])
    (hy : ∀ e ∈ inst.employees, 0 ≤ e.ytd_points ∧ e.ytd_points ≤ 10000) :
    inst.coverageErrors = [] ∧ SolveRel inst (.success fun _ => false) := by
  have herr : inst.coverageErrors = [] := by
    unfold RosterInstance.coverageErrors
    rw [h]
    rfl
  have hkeys : inst.varKeys = [] := by
    unfold RosterInstance.varKeys
    rw [h]
    rfl
  refine ⟨herr, SolveRel.found _ 100000 0 herr ⟨?_, ?_⟩⟩
  · refine ⟨?_, ?_, ?_, ?_, ?_, ?_⟩
    · intro d hd; rw [h] at hd; cases hd
    · intro e _ d hd; rw [h] at hd; cases hd
    · intro e _ p hp; rw [h] at hp; cases hp
    · intro cat _ p hp s hs
      unfold RosterInstance.catSlots at hp
      rw [h] at hp
      cases hp
    · intro d hd; rw [h] at hd; cases hd
    · intro e he m hm hlen
      unfold RosterInstance.empKeys at hlen
      rw [hkeys] at hlen
      simp at hlen
  · refine ⟨by norm_num, by norm_num, by norm_num, by norm_num, ?_⟩
    intro e he
    have : inst.empTotal (fun _ => false) e = 10 * e.ytd_points := by
      unfold RosterInstance.empTotal RosterInstance.empKeys
      rw [hkeys]
      simp
    rw [this]
    have := hy e he
    omega

def empHal : Employee := ⟨"Hal", "Blue", .STANDARD, 7, [], [], none⟩

def instEmpty : RosterInstance := ⟨[empHal], [], [], DEFAULT_POINT_VALUES, []⟩

/-- C3 counterexample: on a concrete instance with an empty horizon,
`solve` can return an ordinary (empty) assignment with empty diagnostics
— refuting the claim that the engine signals a failure (e.g. by raising)
rather than returning an ordinary result.  `RosterSolver.solve` contains
no raise path at all: every outcome is one of the three ordinary
returns. -/
theorem c3_counterexample :
    instEmpty.date_range = [] ∧
    instEmpty.coverageErrors = [] ∧
    SolveRel instEmpty (.success fun _ => false) := by
  refine ⟨rfl, by decide, SolveRel.found _ 100000 0 (by decide)
    ⟨by decide, auxOk_of_weights instEmpty (fun _ => false) 100000 0 defaultPointWeights
      (pointWeights_default instEmpty rfl) (by decide)⟩⟩

/-- C3 witness: `c3_empty_horizon` applied to the empty-horizon
instance. -/
theorem c3_witness :
    instEmpty.date_range = [] ∧
    (∀ e ∈ instEmpty.employees, 0 ≤ e.ytd_points ∧ e.ytd_points ≤ 10000) ∧
    (instEmpty.coverageErrors = [] ∧ SolveRel instEmpty (.success fun _ => false)) :=
  ⟨rfl, by decide, c3_empty_horizon instEmpty rfl (by decide)⟩

/-! C6 -/

/-- C6: when some calendar slot has no candidate variable, every possible
outcome of `solve` is the early failure return carrying the full error
list (the search is never invoked), and the error list contains exactly
the unfillable slots — one entry per slot with no eligible employee, all
of them collected. -/
theorem c6_setup_failure (inst : RosterInstance)
    (h : inst.coverageErrors ≠ []) :
    (∀ r, SolveRel inst r → r = .failure inst.coverageErrors) ∧
    (∀ d ∈ inst.date_range, ∀ s ∈ inst.getShiftsForDay d,
      ((d, s) ∈ inst.coverageErrors ↔
        ∀ e ∈ inst.employees, inst.varExists e d s = false)) := by
  constructor
  · intro r hr
    cases hr with
    | coverage_fail h2 => rfl
    | found x mx mn herr hsat => exact absurd herr h
    | no_solution herr => exact absurd herr h
  · intro d hd s hs
    rw [RosterInstance.mem_coverageErrors]
    constructor
    · rintro ⟨_, _, hall⟩; exact hall
    · intro hall; exact ⟨hd, hs, hall⟩

def instNoEmp : RosterInstance := ⟨[], [mon1], [], DEFAULT_POINT_VALUES, []⟩

/-- C6 witness: a one-day horizon with no employees has all three slots
unfillable; `c6_setup_failure` applied to it (the error list indeed
collects all three slots, not just the first). -/
theorem c6_witness :
    instNoEmp.coverageErrors ≠ [] ∧
    instNoEmp.coverageErrors =
      [(mon1, Shift.ORG_WEEKDAY_PM), (mon1, Shift.TYPE_C_WEEKDAY_PM),
       (mon1, Shift.TYPE_O_WEEKDAY_PM)] ∧
    ((mon1, Shift.ORG_WEEKDAY_PM) ∈ instNoEmp.coverageErrors ↔
      ∀ e ∈ instNoEmp.employees, instNoEmp.varExists e mon1 Shift.ORG_WEEKDAY_PM = false) :=
  ⟨by decide, by decide,
    (c6_setup_failure instNoEmp (by decide)).2 mon1 (by decide)
      Shift.ORG_WEEKDAY_PM (by decide)⟩

/-! C7 & C8 -/

/-- C8: in every successful result, every (date, shift) slot of the
horizon's calendar is assigned exactly one employee (the extraction emits
one RosterAssignment record per set variable, hence one per slot). -/
theorem c8_coverage (inst : RosterInstance) (x : Assignment)
    (h : SolveRel inst (.success x)) :
    ∀ d ∈ inst.date_range, ∀ s ∈ inst.getShiftsForDay d,
      inst.slotCount x d s = 1 := by
  cases h with
  | found x mx mn herr hsat =>
    intro d hd s hs
    exact hsat.1.1 d hd s hs (inst.exists_var_of_no_errors herr hd hs)

/-- C7: in every successful roster, for every pair of consecutive slots
in a category's chronological emission order and every team, the number
of that team's members assigned across the two slots is at most 1 — by
the rotation constraint when the team has variables on both slots, and
by single-slot coverage otherwise. -/
theorem c7_rotation (inst : RosterInstance) (x : Assignment)
    (h : SolveRel inst (.success x)) :
    ∀ cat ∈ RosterInstance.rotCats,
      ∀ p ∈ (inst.catSlots cat).zip (inst.catSlots cat).tail,
        ∀ t ∈ inst.teams,
          inst.teamSlotCount x t p.1.1 p.1.2 +
            inst.teamSlotCount x t p.2.1 p.2.2 ≤ 1 := by
  cases h with
  | found x mx mn herr hsat =>
    intro cat hcat p hp t ht
    obtain ⟨⟨hcov, _, _, hrot, _, _⟩, _⟩ := hsat
    have hp1 : p.1 ∈ inst.catSlots cat := (List.of_mem_zip hp).1
    have hp2 : p.2 ∈ inst.catSlots cat :=
      List.mem_of_mem_tail (List.of_mem_zip hp).2
    obtain ⟨hd1, hs1⟩ := inst.mem_catSlots cat p.1 hp1
    obtain ⟨hd2, hs2⟩ := inst.mem_catSlots cat p.2 hp2
    by_cases h1 : 0 < inst.teamVarCount t p.1.1 p.1.2
    · by_cases h2 : 0 < inst.teamVarCount t p.2.1 p.2.2
      · exact hrot cat hcat p hp t ht h1 h2
      · have hz : inst.teamSlotCount x t p.2.1 p.2.2 = 0 := by
          have := inst.teamSlotCount_le_teamVarCount x t p.2.1 p.2.2
          omega
        have hle : inst.teamSlotCount x t p.1.1 p.1.2 ≤ inst.slotCount x p.1.1 p.1.2 :=
          inst.teamSlotCount_le_slotCount x t p.1.1 p.1.2
        have hc1 : inst.slotCount x p.1.1 p.1.2 = 1 :=
          hcov p.1.1 hd1 p.1.2 hs1 (inst.exists_var_of_no_errors herr hd1 hs1)
        omega
    · have hz : inst.teamSlotCount x t p.1.1 p.1.2 = 0 := by
        have := inst.teamSlotCount_le_teamVarCount x t p.1.1 p.1.2
        omega
      have hle : inst.teamSlotCount x t p.2.1 p.2.2 ≤ inst.slotCount x p.2.1 p.2.2 :=
        inst.teamSlotCount_le_slotCount x t p.2.1 p.2.2
      have hc2 : inst.slotCount x p.2.1 p.2.2 = 1 :=
        hcov p.2.1 hd2 p.2.2 hs2 (inst.exists_var_of_no_errors herr hd2 hs2)
      omega

/- two-weekday fixture for the C7/C8/C9 witnesses -/

def tue1 : Date := ⟨2025, 1, 7⟩

def empP1 : Employee := ⟨"P1", "Blue", .STANDARD, 0, [], [], none⟩
def empP2 : Employee := ⟨"P2", "Yellow", .STANDARD, 0, [], [], none⟩
def empP3 : Employee := ⟨"P3", "Orange", .STANDARD, 0, [], [], none⟩
def empP4 : Employee := ⟨"P4", "Green", .STANDARD, 0, [], [], none⟩
def empP5 : Employee := ⟨"P5", "Purple", .STANDARD, 0, [], [], none⟩
def empP6 : Employee := ⟨"P6", "Violet", .STANDARD, 0, [], [], none⟩

def instWeek : RosterInstance :=
  ⟨[empP1, empP2, empP3, empP4, empP5, empP6], [mon1, tue1], [],
   DEFAULT_POINT_VALUES, []⟩

def xWeek : Assignment := fun k =>
  decide (k ∈ [("P1", mon1, Shift.ORG_WEEKDAY_PM),
               ("P2", mon1, Shift.TYPE_C_WEEKDAY_PM),
               ("P3", mon1, Shift.TYPE_O_WEEKDAY_PM),
               ("P4", tue1, Shift.ORG_WEEKDAY_PM),
               ("P5", tue1, Shift.TYPE_C_WEEKDAY_PM),
               ("P6", tue1, Shift.TYPE_O_WEEKDAY_PM)])

/-- The two-weekday fixture roster is a possible successful outcome. -/
theorem instWeek_solve : SolveRel instWeek (.success xWeek) :=
  SolveRel.found xWeek 10 10 (by decide)
    ⟨by decide, auxOk_of_weights instWeek xWeek 10 10 defaultPointWeights
      (pointWeights_default instWeek rfl) (by decide)⟩

/-- C7 witness: `c7_rotation` applied to the consecutive Org-category
slots of the two-weekday fixture and team "Blue". -/
theorem c7_witness :
    ((mon1, Shift.ORG_WEEKDAY_PM), (tue1, Shift.ORG_WEEKDAY_PM)) ∈
      (instWeek.catSlots "ORG").zip (instWeek.catSlots "ORG").tail ∧
    instWeek.teamSlotCount xWeek "Blue" mon1 Shift.ORG_WEEKDAY_PM +
      instWeek.teamSlotCount xWeek "Blue" tue1 Shift.ORG_WEEKDAY_PM ≤ 1 :=
  ⟨by decide,
    c7_rotation instWeek xWeek instWeek_solve "ORG" (by decide)
      ((mon1, Shift.ORG_WEEKDAY_PM), (tue1, Shift.ORG_WEEKDAY_PM)) (by decide)
      "Blue" (by decide)⟩

/-- C8 witness: `c8_coverage` applied to the Monday Org slot of the
two-weekday fixture. -/
theorem c8_witness :
    instWeek.slotCount xWeek mon1 Shift.ORG_WEEKDAY_PM = 1 :=
  c8_coverage instWeek xWeek instWeek_solve mon1 (by decide)
    Shift.ORG_WEEKDAY_PM (by decide)

/-! C9 -/

/-- The list of projected employee totals (`employee_totals` in
`_set_fairness_objective`). -/
def RosterInstance.totalsList (inst : RosterInstance) (x : Assignment) : List ℤ :=
  inst.employees.map (inst.empTotal x)

/-- `totalsList` written with an explicit integer weight table. -/
theorem totalsList_eq_weights (inst : RosterInstance) (W : Shift → ℤ)
    (hW : ∀ s, inst.pointWeights s = W s) (x : Assignment) :
    inst.totalsList x = inst.employees.map fun e =>
      10 * e.ytd_points +
        ((inst.empKeys e).map fun k => if x k then W k.2.2 else 0).sum := by
  unfold RosterInstance.totalsList
  apply List.map_congr_left
  intro e _
  exact empTotal_eq_weights inst W hW x e

/-- C9: the optimization data is exact fixed-point integers — each weight
is `round(v * 10)`, each projected total is `10 * starting points` plus
the integer weights of assigned shifts, and among all feasible values of
the auxiliary objective variables the least value of `max_pts - min_pts`
is exactly (maximum projected total − minimum projected total), i.e. the
minimized objective is the max-minus-min spread. -/
theorem c9_objective (inst : RosterInstance) (x : Assignment) (M m : ℤ)
    (hM : M ∈ inst.totalsList x) (hm : m ∈ inst.totalsList x)
    (hMax : ∀ t ∈ inst.totalsList x, t ≤ M)
    (hMin : ∀ t ∈ inst.totalsList x, m ≤ t)
    (hbound : ∀ e ∈ inst.employees,
      0 ≤ inst.empTotal x e ∧ inst.empTotal x e ≤ 100000) :
    (∀ s : Shift, inst.pointWeights s = round (inst.point_values s * 10)) ∧
    (∀ e ∈ inst.employees, inst.empTotal x e =
        10 * e.ytd_points +
          ((inst.empKeys e).map fun k =>
            if x k then inst.pointWeights k.2.2 else 0).sum) ∧
    IsLeast {v : ℤ | ∃ mx mn, inst.AuxOk x mx mn ∧ v = mx - mn} (M - m) := by
  obtain ⟨eM, heM, heqM⟩ := List.mem_map.mp hM
  obtain ⟨em, hem, heqm⟩ := List.mem_map.mp hm
  refine ⟨fun s => rfl, fun e he => rfl, ⟨M, m, ?_, rfl⟩, ?_⟩
  · refine ⟨?_, ?_, ?_, ?_, ?_⟩
    · rw [← heqM]; exact (hbound eM heM).1
    · rw [← heqM]; exact (hbound eM heM).2
    · rw [← heqm]; exact (hbound em hem).1
    · rw [← heqm]; exact (hbound em hem).2
    · intro e he
      have hmem : inst.empTotal x e ∈ inst.totalsList x :=
        List.mem_map_of_mem _ he
      exact ⟨hMax _ hmem, hMin _ hmem⟩
  · rintro v ⟨mx, mn, ⟨hmx0, hmx1, hmn0, hmn1, hbr⟩, rfl⟩
    have h1 : M ≤ mx := by rw [← heqM]; exact (hbr eM heM).1
    have h2 : mn ≤ m := by rw [← heqm]; exact (hbr em hem).2
    omega

/-- C9 witness: `c9_objective` applied to the two-weekday fixture, where
every projected total is 10 and the minimal objective value is 0. -/
theorem c9_witness :
    (10:ℤ) ∈ instWeek.totalsList xWeek ∧
    (∀ t ∈ instWeek.totalsList xWeek, t ≤ 10) ∧
    (∀ t ∈ instWeek.totalsList xWeek, (10:ℤ) ≤ t) ∧
    IsLeast {v : ℤ | ∃ mx mn, instWeek.AuxOk xWeek mx mn ∧ v = mx - mn}
      (10 - 10) := by
  have hW := pointWeights_default instWeek rfl
  have ht : instWeek.totalsList xWeek = [10, 10, 10, 10, 10, 10] := by
    rw [totalsList_eq_weights instWeek defaultPointWeights hW xWeek]
    decide
  have hbound : ∀ e ∈ instWeek.employees,
      0 ≤ instWeek.empTotal xWeek e ∧ instWeek.empTotal xWeek e ≤ 100000 := by
    intro e he
    have hmem : instWeek.empTotal xWeek e ∈ instWeek.totalsList xWeek :=
      List.mem_map_of_mem _ he
    rw [ht] at hmem
    simp only [List.mem_cons, List.not_mem_nil, or_false] at hmem
    omega
  refine ⟨by rw [ht]; decide, by rw [ht]; decide, by rw [ht]; decide, ?_⟩
  exact (c9_objective instWeek xWeek 10 10 (by rw [ht]; decide)
    (by rw [ht]; decide) (by rw [ht]; decide) (by rw [ht]; decide) hbound).2.2

/-! C10 -/

def empAce : Employee := ⟨"Ace", "Blue", .STANDARD, 10001, [], [], none⟩
def empBee : Employee := ⟨"Bee", "Yellow", .STANDARD, 0, [], [], none⟩
def empCal : Employee := ⟨"Cal", "Orange", .STANDARD, 0, [], [], none⟩

def instBig : RosterInstance :=
  ⟨[empAce, empBee, empCal], [mon1], [], DEFAULT_POINT_VALUES, []⟩

def xBig : Assignment := fun k =>
  decide (k ∈ [("Ace", mon1, Shift.ORG_WEEKDAY_PM),
               ("Bee", mon1, Shift.TYPE_C_WEEKDAY_PM),
               ("Cal", mon1, Shift.TYPE_O_WEEKDAY_PM)])

/-- C10: the auxiliary objective variables are bounded by [0, 100000], so
any satisfiable full model forces every projected total to at most
100000; on a concrete instance whose slots are all fillable and whose
roster constraints are satisfiable but where one employee starts with
10001 points (projected total ≥ 100010), the only possible `solve`
outcome is the generic infeasibility diagnostic. -/
theorem c10_objective_bounds :
    (∀ (inst : RosterInstance) (x : Assignment) (mx mn : ℤ),
        inst.SatisfiesFull x mx mn →
          ∀ e ∈ inst.employees, inst.empTotal x e ≤ 100000) ∧
    instBig.coverageErrors = [] ∧
    instBig.SatisfiesRoster xBig ∧
    (∀ r, SolveRel instBig r → r = .infeasible) := by
  have hgen : ∀ (inst : RosterInstance) (x : Assignment) (mx mn : ℤ),
      inst.SatisfiesFull x mx mn →
        ∀ e ∈ inst.employees, inst.empTotal x e ≤ 100000 := by
    rintro inst x mx mn ⟨_, _, hmx1, _, _, hbr⟩ e he
    have h1 := (hbr e he).1
    omega
  have hW := pointWeights_default instBig rfl
  have hAce : ∀ x : Assignment, 100010 ≤ instBig.empTotal x empAce := by
    intro x
    rw [empTotal_eq_weights instBig defaultPointWeights hW]
    have hk : instBig.empKeys empAce =
        [("Ace", mon1, Shift.ORG_WEEKDAY_PM),
         ("Ace", mon1, Shift.TYPE_C_WEEKDAY_PM),
         ("Ace", mon1, Shift.TYPE_O_WEEKDAY_PM)] := by decide
    rw [hk]
    simp only [List.map_cons, List.map_nil, List.sum_cons, List.sum_nil]
    split_ifs <;> norm_num [empAce, defaultPointWeights]
  refine ⟨hgen, by decide, by decide, ?_⟩
  intro r hr
  cases hr with
  | coverage_fail h2 => exact absurd (by decide : instBig.coverageErrors = []) h2
  | found x mx mn herr hsat =>
    exfalso
    have h1 := hgen instBig x mx mn hsat empAce (by decide)
    have h2 := hAce x
    omega
  | no_solution herr => rfl
